import Mathlib

/-!
Shallow embedding of the layered configuration resolution engine of
`pkg/common/load/load.go` (package `load`): tag-driven population of a
configuration structure from defaults, bundled YAML overlays, a custom
YAML overlay, and environment variables.
-/

namespace Load

/-- The dynamic value held by a leaf field of the configuration structure.
The constructors mirror the reflect kinds that `processValueFromString`
dispatches on: `String`, `Bool`, `Slice`/`Array` (of strings), `Int`/`Int64`,
and `vOther` for every other kind (which the switch in the source ignores). -/
inductive Value where
  | vStr (s : String)
  | vBool (b : Bool)
  | vSlice (xs : List String)
  | vInt (n : Int)
  | vOther (k : Nat)
  deriving DecidableEq

/-- The struct tags of a field: `default` (DefaultTag) and `env` (EnvVarTag).
`none` means the tag is absent; `Tag.Lookup` distinguishes absent from
present-but-empty. -/
structure Tags where
  default : Option String
  env : Option String
  deriving DecidableEq

/-- A field of the configuration structure: either a leaf with tags and a
value, or a nested struct (`reflect.Struct`) with its own fields, which
`load` recurses into. -/
inductive Field where
  | leaf (name : String) (tags : Tags) (val : Value)
  | node (name : String) (fields : List Field)

/-- A deserialized overlay document: the key paths it defines, each with the
value assigned to the addressed field. -/
abbrev Overlay : Type := List (List String × Value)

/-- The external collaborators of the resolver, passed explicitly: the process
environment (`os.Getenv`), the packaged overlay namespace served by pkger
(`/configs/<name>.yaml`), the filesystem for custom overlay files keyed by
absolute cleaned path, the working directory (`os.Getwd`, always absolute),
the result of `ioutil.TempDir`, and the seed of the random generator.
For the two overlay maps, `none` models an open/read failure (file absent)
and `some (Except.error e)` a failed YAML unmarshal of the document found. -/
structure Env where
  getenv : String → String
  configsFS : String → Option (Except String Overlay)
  files : String → Option (Except String Overlay)
  getwd : String
  tmpdir : Except String String
  seed : Nat

/-- Alphanumeric alphabet used by the modelled random-string generator. -/
def alphanum : List Char :=
  ("abcdefghijklmnopqrstuvwxyzABCDEFGHIJKLMNOPQRSTUVWXYZ0123456789").toList

/-- Modelled from the spec: `util.RandomStr` (package `pkg/common/util`, not in
the excerpt) "generates a random alphanumeric string of length n"; modelled as
a deterministic generator over an explicit seed. -/
def randomStr (seed n : Nat) : String :=
  String.mk ((List.range n).map fun i => alphanum.getD ((seed + i) % 62) 'a')

/-- `strconv.ParseBool`: accepts exactly 1, t, T, TRUE, true, True, 0, f, F,
FALSE, false, False; anything else is a syntax error. -/
def goParseBool (s : String) : Except String Bool :=
  if s = ("1") ∨ s = ("t") ∨ s = ("T") ∨ s = ("TRUE") ∨ s = ("true") ∨ s = ("True") then
    Except.ok true
  else if s = ("0") ∨ s = ("f") ∨ s = ("F") ∨ s = ("FALSE") ∨ s = ("false") ∨ s = ("False") then
    Except.ok false
  else
    Except.error ("strconv.ParseBool: parsing \"" ++ s ++ "\": invalid syntax")

/-- Numeric value of a decimal digit run. -/
def digitsToNat (ds : List Char) : Nat :=
  ds.foldl (fun a c => a * 10 + (c.toNat - 48)) 0

/-- `strconv.ParseInt(s, 10, 0)`: an optional sign followed by at least one
decimal digit (the base is given explicitly, so no underscores or prefixes),
rejected when the value does not fit a signed 64-bit integer (bitSize 0
resolves to the platform int, 64-bit). `strconv.Atoi` is exactly this call. -/
def goParseInt (s : String) : Except String Int :=
  let pair : Bool × List Char :=
    match s.toList with
    | '+' :: r => (false, r)
    | '-' :: r => (true, r)
    | r => (false, r)
  if pair.2 = [] ∨ ¬ pair.2.all Char.isDigit then
    Except.error ("strconv.ParseInt: parsing \"" ++ s ++ "\": invalid syntax")
  else if pair.1 then
    if digitsToNat pair.2 ≤ 2 ^ 63 then Except.ok (-(digitsToNat pair.2 : Int))
    else Except.error ("strconv.ParseInt: parsing \"" ++ s ++ "\": value out of range")
  else
    if digitsToNat pair.2 ≤ 2 ^ 63 - 1 then Except.ok (digitsToNat pair.2 : Int)
    else Except.error ("strconv.ParseInt: parsing \"" ++ s ++ "\": value out of range")

/-- Accumulator loop of `strings.Split` for the single-character separator
comma: characters are collected until a comma closes the current piece. -/
def splitCommaAux : List Char → List Char → List String
  | [], acc => [String.mk acc.reverse]
  | c :: cs, acc =>
    if c = ',' then String.mk acc.reverse :: splitCommaAux cs []
    else splitCommaAux cs (c :: acc)

/-- `strings.Split(s, ",")`: the pieces of `s` between commas, in order. -/
def goSplitComma (s : String) : List String := splitCommaAux s.toList []

/-- One attempt of `rndStringRegex` at the head of the character list: the
literal prefix of six characters underscore-underscore-R-N-D-underscore, then
the capture group (a nonempty maximal digit run — a shorter greedy retreat
would put a digit where the pattern needs an underscore, so maximality is
forced), then two underscores. Returns the capture group. -/
def rndMatchAt (cs : List Char) : Option (List Char) :=
  if cs.take 6 = ("__RND_").toList then
    let ds := (cs.drop 6).takeWhile Char.isDigit
    if ds ≠ [] ∧ ((cs.drop 6).dropWhile Char.isDigit).take 2 = ("__").toList then some ds
    else none
  else none

/-- Leftmost-match scan for `rndStringRegex`. -/
def rndFindAux : List Char → Option (List Char)
  | [] => none
  | c :: cs =>
    match rndMatchAt (c :: cs) with
    | some ds => some ds
    | none => rndFindAux cs

/-- Models `rndStringRegex`, the compiled regular expression whose pattern is
two underscores, RND, one underscore, a parenthesized nonempty digit group,
and two underscores: returns the first capture group of the leftmost match of
the pattern anywhere in `s`, so `MatchString s` is
`(rndStringRegexFind s).isSome` and the second entry of `FindStringSubmatch s`
is the returned group. -/
def rndStringRegexFind (s : String) : Option String :=
  (rndFindAux s.toList).map fun ds => String.mk ds

/-- `processValueFromString(f, field, value)`: dispatch on the reflect kind of
the field. `Except.ok` carries the new field value; `Except.error` leaves the
field as it was at the call site. String fields get the `__TMP_DIR__` and
`__RND_<n>__` sentinel treatment; slice/array fields append the comma-split
elements of a nonempty value to the sequence already present; kinds outside
the switch fall through unchanged with a nil error. -/
def processValueFromString (e : Env) (fname : String) (val : Value) (value : String) :
    Except String Value :=
  match val with
  | Value.vStr _ =>
    if value = ("__TMP_DIR__") then
      match e.tmpdir with
      | Except.ok dir => Except.ok (Value.vStr dir)
      | Except.error err =>
        Except.error ("error generating temporary directory for field " ++ fname ++ ": " ++ err)
    else
      match rndStringRegexFind value with
      | some ds =>
        match goParseInt ds with
        | Except.ok n => Except.ok (Value.vStr (randomStr e.seed n.toNat))
        | Except.error err =>
          Except.error ("error generating random string for field " ++ fname ++ ": " ++ err)
      | none => Except.ok (Value.vStr value)
  | Value.vBool _ =>
    match goParseBool value with
    | Except.ok b => Except.ok (Value.vBool b)
    | Except.error err =>
      Except.error ("error parsing bool value for field " ++ fname ++ ": " ++ err)
  | Value.vSlice xs =>
    if value ≠ ("") then Except.ok (Value.vSlice (xs ++ goSplitComma value))
    else Except.ok (Value.vSlice xs)
  | Value.vInt _ =>
    match goParseInt value with
    | Except.ok n => Except.ok (Value.vInt n)
    | Except.error err =>
      Except.error ("error parsing int value for field " ++ fname ++ ": " ++ err)
  | Value.vOther k => Except.ok (Value.vOther k)

/-- The two source conditionals at the top of the loop body of `load`, for a
non-struct field: the first component is `none` when the iteration hits a
`continue`, or carries the value handed to `processValueFromString`; the
second component is the content of the `setValue` variable after the
conditionals ran (the multiple-assignment from `Tag.Lookup` writes it even on
the `continue` path). -/
def leafStep (e : Env) (source : String) (t : Tags) (sv : String) : Option String × String :=
  if source = ("default") then
    match t.default with
    | none => (none, "")
    | some d => (some d, d)
  else if source = ("env") then
    match t.env with
    | none => (some sv, sv)
    | some ev =>
      let v := e.getenv ev
      if v = ("") then (none, "") else (some v, v)
  else (some sv, sv)

/-- `load(v, source)`: iterates over the fields of a struct for the given
source ("default" or "env"). The extra `String` argument and result thread the
`setValue` variable, which the source declares once outside the loop, so a
leaf that does not set it sees the residue of earlier iterations. A struct
field is recursed into with a fresh `setValue`, and the recursive call result
is discarded, as in the source. A processing error aborts the iteration,
leaving the remaining fields untouched, and is returned. -/
def load (e : Env) (source : String) : List Field → String → List Field × String × Option String
  | [], sv => ([], sv, none)
  | Field.node nm subs :: rest, sv =>
    let sub := load e source subs ("")
    let r := load e source rest sv
    (Field.node nm sub.1 :: r.1, r.2)
  | Field.leaf nm t val :: rest, sv =>
    match leafStep e source t sv with
    | (none, sv2) =>
      let r := load e source rest sv2
      (Field.leaf nm t val :: r.1, r.2)
    | (some v, sv2) =>
      match processValueFromString e nm val v with
      | Except.error err => (Field.leaf nm t val :: rest, sv2, some err)
      | Except.ok val2 =>
        let r := load e source rest sv2
        (Field.leaf nm t val2 :: r.1, r.2)

/-- `loadDefaults`: runs the default pass. As in the source, the error
returned by `load` is discarded and the function always returns nil. -/
def loadDefaults (e : Env) (fields : List Field) : List Field × Option String :=
  ((load e ("default") fields ("")).1, none)

/-- `loadFromEnv`: runs the environment pass. As in the source, the error
returned by `load` is discarded and the function always returns nil. -/
def loadFromEnv (e : Env) (fields : List Field) : List Field × Option String :=
  ((load e ("env") fields ("")).1, none)

/-- Modelled from the spec: one key path of a YAML document assigned into the
structure by the deserializer; descends nodes along the path and overwrites
the addressed leaf; paths that address nothing are ignored. -/
def setPath : List Field → List String → Value → List Field
  | [], _, _ => []
  | fields, [], _ => fields
  | Field.leaf n t w :: rest, [k], v =>
    (if n = k then Field.leaf n t v else Field.leaf n t w) :: setPath rest [k] v
  | Field.node n subs :: rest, [k], v => Field.node n subs :: setPath rest [k] v
  | Field.leaf n t w :: rest, k :: k2 :: ks, v =>
    Field.leaf n t w :: setPath rest (k :: k2 :: ks) v
  | Field.node n subs :: rest, k :: k2 :: ks, v =>
    (if n = k then Field.node n (setPath subs (k2 :: ks) v) else Field.node n subs)
      :: setPath rest (k :: k2 :: ks) v

/-- Modelled from the spec: the structural merge of `yaml.Unmarshal` into the
structure — only keys present in the document overwrite corresponding fields,
in document order; absent keys are untouched. -/
def applyOverlay (fields : List Field) (o : Overlay) : List Field :=
  o.foldl (fun fs ent => setPath fs ent.1 ent.2) fields

/-- Reads the leaf value at a key path, skipping fields that do not match. -/
def getPath : List Field → List String → Option Value
  | [], _ => none
  | _, [] => none
  | Field.leaf n _ v :: rest, [k] => if n = k then some v else getPath rest [k]
  | Field.node _ _ :: rest, [k] => getPath rest [k]
  | Field.leaf _ _ _ :: rest, k :: k2 :: ks => getPath rest (k :: k2 :: ks)
  | Field.node n subs :: rest, k :: k2 :: ks =>
    if n = k then getPath subs (k2 :: ks) else getPath rest (k :: k2 :: ks)

/-- `loadYAMLFromConfigs(object, name)`: opens `/configs/<name>.yaml` in the
pkger virtual filesystem — modelled from the spec as the `configsFS` map of
the environment, since the packaged documents are not part of the excerpt —
wrapping an open failure with the config name, then unmarshals; an unmarshal
failure is returned raw. -/
def loadYAMLFromConfigs (e : Env) (fields : List Field) (name : String) :
    Except String (List Field) :=
  match e.configsFS name with
  | none => Except.error ("error trying to open config " ++ name ++ ": file does not exist")
  | some (Except.error err) => Except.error err
  | some (Except.ok o) => Except.ok (applyOverlay fields o)

/-- Element-stack step of `path.Clean`: empty and dot elements vanish, dotdot
pops a non-dotdot top (or vanishes at the root), other elements push. -/
def cleanStack (rooted : Bool) : List String → List String → List String
  | acc, [] => acc
  | acc, el :: els =>
    if el = ("") ∨ el = (".") then cleanStack rooted acc els
    else if el = ("..") then
      match acc with
      | [] => if rooted then cleanStack rooted [] els else cleanStack rooted [".."] els
      | top :: acc2 =>
        if top = ("..") then cleanStack rooted (".." :: top :: acc2) els
        else cleanStack rooted acc2 els
    else cleanStack rooted (el :: acc) els

/-- `filepath.Clean` for slash-separated paths. -/
def pathClean (p : String) : String :=
  if p = ("") then "."
  else
    let rooted := p.startsWith ("/")
    let out := String.intercalate ("/") (cleanStack rooted [] (p.splitOn ("/"))).reverse
    if rooted then "/" ++ out
    else if out = ("") then "." else out

/-- The path computed by `loadYAMLFromFile` before reading:
`filepath.Join` of the working directory and the name, made absolute and
cleaned — for an absolute working directory this is the cleaned
concatenation. -/
def resolvedPath (cwd name : String) : String := pathClean (cwd ++ "/" ++ name)

/-- `loadYAMLFromFile(object, name)`: joins `name` to the working directory,
cleans the path and reads it — the filesystem is modelled from the spec as
the `files` map of the environment, a missing path failing with the OS read
error naming the resolved path, returned raw as in the source (`Getwd` is
modelled as always succeeding with an absolute directory) — then unmarshals;
an unmarshal failure is returned raw. -/
def loadYAMLFromFile (e : Env) (fields : List Field) (name : String) :
    Except String (List Field) :=
  match e.files (resolvedPath e.getwd name) with
  | none =>
    Except.error ("open " ++ resolvedPath e.getwd name ++ ": no such file or directory")
  | some (Except.error err) => Except.error err
  | some (Except.ok o) => Except.ok (applyOverlay fields o)

/-- The step-2a loop of `IntoObject`: applies each named bundled config in the
given order, wrapping a failure and aborting the loop there. -/
def loadConfigsLoop (e : Env) : List Field → List String → List Field × Option String
  | fields, [] => (fields, none)
  | fields, c :: cs =>
    match loadYAMLFromConfigs e fields c with
    | Except.error err => (fields, some ("error loading config from YAML: " ++ err))
    | Except.ok f2 => loadConfigsLoop e f2 cs

/-- The supplied target of `IntoObject`: either a pointer to a config struct,
or a value of any non-pointer reflect kind. -/
inductive GoValue where
  | ptrStruct (fields : List Field)
  | nonPtr (kind : String)

/-- Passes 1 to 3 of `IntoObject` (defaults, bundled configs, custom config),
each failure wrapped as it is there; names the state the environment pass
then runs on. -/
def afterOverlays (e : Env) (fields : List Field) (configs : List String)
    (customConfig : String) : List Field × Option String :=
  match loadDefaults e fields with
  | (f1, some err) => (f1, some ("error loading config defaults: " ++ err))
  | (f1, none) =>
    match loadConfigsLoop e f1 configs with
    | (f2, some err) => (f2, some err)
    | (f2, none) =>
      if customConfig ≠ ("") then
        match loadYAMLFromFile e f2 customConfig with
        | Except.error err => (f2, some ("error loading custom config from YAML: " ++ err))
        | Except.ok f3 => (f3, none)
      else (f2, none)

/-- `IntoObject(object, configs, customConfig)`: rejects non-pointer targets,
then runs the four passes in order — defaults, bundled configs in the given
order, the custom config if nonempty, environment — each failure aborting
with a wrapped error; on an abort the partially mutated object is what
remains. -/
def IntoObject (e : Env) (object : GoValue) (configs : List String) (customConfig : String) :
    GoValue × Option String :=
  match object with
  | GoValue.nonPtr k => (GoValue.nonPtr k, some ("the supplied object must be a pointer"))
  | GoValue.ptrStruct fields =>
    match afterOverlays e fields configs customConfig with
    | (f3, some err) => (GoValue.ptrStruct f3, some err)
    | (f3, none) =>
      match loadFromEnv e f3 with
      | (f4, some err) =>
        (GoValue.ptrStruct f4, some ("error loading config from environment: " ++ err))
      | (f4, none) => (GoValue.ptrStruct f4, none)

/-- A concrete external environment with nothing set: every environment
variable reads empty, no packaged or filesystem overlay documents exist,
temporary-directory creation succeeds. -/
def env0 : Env where
  getenv := fun _ => ""
  configsFS := fun _ => none
  files := fun _ => none
  getwd := "/work"
  tmpdir := Except.ok ("/tmp/osde2e-123")
  seed := 0

/-- A concrete external environment with a few variables set. -/
def env1 : Env where
  getenv := fun v =>
    if v = ("NAME") then "ev"
    else if v = ("LIST") then "a,b,c"
    else if v = ("ITEMS") then "c"
    else if v = ("SECRET") then "s3cret"
    else ""
  configsFS := fun _ => none
  files := fun _ => none
  getwd := "/work"
  tmpdir := Except.ok ("/tmp/osde2e-123")
  seed := 0

/-- A bundled overlay document setting the UpgradeVersion field. -/
def ovA : Overlay := [([("UpgradeVersion")], Value.vStr ("from-a"))]

/-- A second bundled overlay document setting the same field. -/
def ovB : Overlay := [([("UpgradeVersion")], Value.vStr ("from-b"))]

/-- A concrete external environment packaging the two overlays above under
the names a and b. -/
def env2 : Env where
  getenv := fun _ => ""
  configsFS := fun n =>
    if n = ("a") then some (Except.ok ovA)
    else if n = ("b") then some (Except.ok ovB)
    else none
  files := fun _ => none
  getwd := "/work"
  tmpdir := Except.ok ("/tmp/osde2e-123")
  seed := 0

/-- A concrete target structure for the overlay-order witness. -/
def fieldsC6 : List Field :=
  [Field.leaf ("UpgradeVersion") ⟨none, none⟩ (Value.vStr ("zero")),
   Field.leaf ("Other") ⟨none, none⟩ (Value.vStr ("o"))]

end Load

namespace Load

theorem randomStr_length (seed n : Nat) : (randomStr seed n).length = n := by
  simp [randomStr, String.length]

/-- C1: the claim fails on the code. `load` does build a field-level error for
a malformed boolean default, but `loadDefaults` (like `loadFromEnv`) discards
the return value of `load` and always returns nil, so `IntoObject` returns
success while the field-level error occurred and the field kept its zero
value. -/
theorem c1_field_errors_are_dropped :
    (load env0 ("default")
        [Field.leaf ("Flag") ⟨some ("notabool"), none⟩ (Value.vBool false)] ("")).2.2
      = some ("error parsing bool value for field Flag: strconv.ParseBool: parsing \"notabool\": invalid syntax")
    ∧ IntoObject env0
        (GoValue.ptrStruct [Field.leaf ("Flag") ⟨some ("notabool"), none⟩ (Value.vBool false)])
        [] ("")
      = (GoValue.ptrStruct [Field.leaf ("Flag") ⟨some ("notabool"), none⟩ (Value.vBool false)],
          none) := by
  constructor
  · simp [load, leafStep, processValueFromString, goParseBool]
  · simp [IntoObject, afterOverlays, loadDefaults, loadFromEnv, loadConfigsLoop, load, leafStep,
      processValueFromString, goParseBool, env0]

/-- C2: the claim fails on the code. In the environment pass a leaf that does
not declare an env tag is not skipped: control falls through to
`processValueFromString` with the residual `setValue` (empty at the start of
the loop, or the last looked-up environment value), so a string field set to
"hello" by the default pass is clobbered to "" by the environment pass, and a
tagless field following an annotated one receives that field's environment
value. -/
theorem c2_untagged_fields_clobbered :
    (loadDefaults env0 [Field.leaf ("Name") ⟨some ("hello"), none⟩ (Value.vStr (""))]).1
      = [Field.leaf ("Name") ⟨some ("hello"), none⟩ (Value.vStr ("hello"))]
    ∧ IntoObject env0
        (GoValue.ptrStruct [Field.leaf ("Name") ⟨some ("hello"), none⟩ (Value.vStr (""))])
        [] ("")
      = (GoValue.ptrStruct [Field.leaf ("Name") ⟨some ("hello"), none⟩ (Value.vStr (""))],
          none)
    ∧ (loadFromEnv env1
        [Field.leaf ("Tok") ⟨none, some ("SECRET")⟩ (Value.vStr ("")),
         Field.leaf ("Other") ⟨none, none⟩ (Value.vStr ("keep"))]).1
      = [Field.leaf ("Tok") ⟨none, some ("SECRET")⟩ (Value.vStr ("s3cret")),
         Field.leaf ("Other") ⟨none, none⟩ (Value.vStr ("s3cret"))] := by
  refine ⟨?_, ?_, ?_⟩
  · simp [loadDefaults, load, leafStep, processValueFromString, rndStringRegexFind, rndFindAux, rndMatchAt]
  · simp [IntoObject, afterOverlays, loadDefaults, loadFromEnv, loadConfigsLoop, load, leafStep,
      processValueFromString, rndStringRegexFind, rndFindAux, rndMatchAt, env0]
  · simp [loadFromEnv, load, leafStep, processValueFromString, rndStringRegexFind, rndFindAux,
      rndMatchAt, env1]

/-- C3 counterexample: on the value `__RND_abc__` the claim predicts a
field-level error, but the pattern of `rndStringRegex` requires decimal
digits, so the value does not match and is assigned verbatim with a nil
error. -/
theorem c3_rnd_nonnumeric_counterexample :
    processValueFromString env0 ("CleanCheckRuns") (Value.vStr ("old")) ("__RND_abc__")
      = Except.ok (Value.vStr ("__RND_abc__")) := by
  rfl

/-- C3 as amended: when the incoming string matches the digit pattern of
`rndStringRegex` (and the captured digit group fits the integer parse, which
can only fail by exceeding the 64-bit range) the field is assigned a random
alphanumeric string whose length is the captured number; a string that does
not match the pattern at all — such as `__RND_abc__`, whose middle part is
not numeric — is assigned verbatim with a nil error rather than failing. -/
theorem c3_rnd_transform :
    (∀ (e : Env) (nm s v ds : String) (n : Int),
      rndStringRegexFind v = some ds →
      goParseInt ds = Except.ok n →
      processValueFromString e nm (Value.vStr s) v
          = Except.ok (Value.vStr (randomStr e.seed n.toNat))
        ∧ (randomStr e.seed n.toNat).length = n.toNat)
    ∧ (∀ (e : Env) (nm s v : String),
      rndStringRegexFind v = none →
      v ≠ ("__TMP_DIR__") →
      processValueFromString e nm (Value.vStr s) v = Except.ok (Value.vStr v)) := by
  constructor
  · intro e nm s v ds n hfind hparse
    have hv : v ≠ ("__TMP_DIR__") := by
      intro hh
      subst hh
      rw [show rndStringRegexFind ("__TMP_DIR__") = none from rfl] at hfind
      exact Option.noConfusion hfind
    refine ⟨?_, randomStr_length e.seed n.toNat⟩
    simp [processValueFromString, hv, hfind, hparse]
  · intro e nm s v hfind hv
    simp [processValueFromString, hv, hfind]

/-- Witness for C3 at a concrete environment: the default `__RND_8__` yields
a random string of length 8, assigned in place of the directive. -/
theorem c3_rnd_transform_witness :
    processValueFromString env0 ("F") (Value.vStr ("")) ("__RND_8__")
        = Except.ok (Value.vStr (randomStr 0 8))
      ∧ (randomStr 0 8).length = 8 := by
  have h := (c3_rnd_transform).1 env0 ("F") ("") ("__RND_8__") ("8") 8 rfl rfl
  simpa [env0] using h

/-- C9: the randomized-string transform triggers on substring containment of
the pattern, not only on exact equality: `prefix__RND_5__suffix` is entirely
replaced by a random string of length 5, and with two occurrences the length
is taken from the first (leftmost) match. -/
theorem c9_rnd_substring_trigger :
    ∀ (e : Env) (nm s : String),
      processValueFromString e nm (Value.vStr s) ("prefix__RND_5__suffix")
          = Except.ok (Value.vStr (randomStr e.seed 5))
        ∧ processValueFromString e nm (Value.vStr s) ("a__RND_3__b__RND_7__c")
          = Except.ok (Value.vStr (randomStr e.seed 3))
        ∧ (randomStr e.seed 5).length = 5 := by
  intro e nm s
  exact ⟨rfl, rfl, randomStr_length e.seed 5⟩

/-- C5 counterexample: a sequence-of-string field that already holds elements
is not resolved to the split of the incoming value — the split elements are
appended after the existing ones. Here the field holds one element (as an
overlay could have left it) and the environment pass supplies "a,b,c". -/
theorem c5_slice_append_counterexample :
    (loadFromEnv env1 [Field.leaf ("L") ⟨none, some ("LIST")⟩ (Value.vSlice (["x"]))]).1
      = [Field.leaf ("L") ⟨none, some ("LIST")⟩ (Value.vSlice (["x", "a", "b", "c"]))]
    ∧ (["x", "a", "b", "c"] : List String) ≠ ["a", "b", "c"] := by
  constructor
  · simp [loadFromEnv, load, leafStep, processValueFromString, env1, goSplitComma, splitCommaAux]
  · decide

/-- C5 as amended: assignment of a string to a sequence-of-string field splits
the value on commas and appends the pieces to the sequence already present
(an empty incoming value appends nothing); in particular a field that is
empty beforehand resolves to exactly the split, so "a,b,c" yields the three
elements a, b, c and "" leaves the sequence empty. -/
theorem c5_slice_split_appends :
    ∀ (e : Env) (fname : String) (xs : List String) (value : String),
      processValueFromString e fname (Value.vSlice xs) value
          = Except.ok (Value.vSlice (if value = ("") then xs else xs ++ goSplitComma value))
        ∧ processValueFromString e fname (Value.vSlice []) ("a,b,c")
          = Except.ok (Value.vSlice (["a", "b", "c"]))
        ∧ processValueFromString e fname (Value.vSlice []) ("")
          = Except.ok (Value.vSlice []) := by
  intro e fname xs value
  refine ⟨?_, rfl, rfl⟩
  by_cases h : value = ("")
  · simp [processValueFromString, h]
  · simp [processValueFromString, h]

/-- C10: `processValueFromString` has no default case in its kind switch, so a
field of any kind other than string, bool, slice, array, int or int64 is left
unchanged and a nil error is returned, regardless of the incoming value. -/
theorem c10_unsupported_kinds_skipped :
    ∀ (e : Env) (fname : String) (k : Nat) (value : String),
      processValueFromString e fname (Value.vOther k) value = Except.ok (Value.vOther k) :=
  fun _ _ _ _ => rfl

/-- C8: a non-pointer target makes `IntoObject` return the pointer error
immediately, with the target unchanged and no resolution pass performed; for
a pointer target resolution proceeds through the four passes (defaults and
overlays first, then — when they succeed — the environment pass on their
result). -/
theorem c8_pointer_check :
    ∀ (e : Env) (configs : List String) (cust : String),
      (∀ k, IntoObject e (GoValue.nonPtr k) configs cust
          = (GoValue.nonPtr k, some ("the supplied object must be a pointer")))
        ∧ ∀ fields,
            IntoObject e (GoValue.ptrStruct fields) configs cust
              = (match afterOverlays e fields configs cust with
                  | (f3, some err) => (GoValue.ptrStruct f3, some err)
                  | (f3, none) => (GoValue.ptrStruct ((load e ("env") f3 ("")).1), none)) := by
  intro e configs cust
  constructor
  · intro k; rfl
  · intro fields
    rcases h : afterOverlays e fields configs cust with ⟨f3, e3⟩
    cases e3 <;> simp [IntoObject, h, loadFromEnv]

/-- C7: a bundled overlay name absent from the packaged set aborts
`IntoObject` with a wrapped error carrying that name, and a custom overlay
whose resolved path does not exist aborts with the read error carrying the
resolved path; in both cases the result state is the post-defaults state —
no later pass has run. -/
theorem c7_overlay_errors :
    ∀ (e : Env) (fields : List Field) (name : String) (post : List String) (cust : String),
      (e.configsFS name = none →
        IntoObject e (GoValue.ptrStruct fields) (name :: post) cust
          = (GoValue.ptrStruct ((load e ("default") fields ("")).1),
              some ("error loading config from YAML: "
                ++ ("error trying to open config " ++ name ++ ": file does not exist"))))
      ∧ (cust ≠ ("") → e.files (resolvedPath e.getwd cust) = none →
          IntoObject e (GoValue.ptrStruct fields) [] cust
            = (GoValue.ptrStruct ((load e ("default") fields ("")).1),
                some ("error loading custom config from YAML: "
                  ++ ("open " ++ resolvedPath e.getwd cust ++ ": no such file or directory")))) := by
  intro e fields name post cust
  constructor
  · intro h
    simp [IntoObject, afterOverlays, loadDefaults, loadConfigsLoop, loadYAMLFromConfigs, h]
  · intro hc h
    simp [IntoObject, afterOverlays, loadDefaults, loadConfigsLoop, loadYAMLFromFile, hc, h]

theorem load_append (e : Env) (src : String) :
    ∀ (pre rest : List Field) (sv : String) (p1 : List Field) (s1 : String),
      load e src pre sv = (p1, s1, none) →
      load e src (pre ++ rest) sv
        = (p1 ++ (load e src rest s1).1, (load e src rest s1).2) := by
  intro pre
  induction pre with
  | nil =>
    intro rest sv p1 s1 h
    simp only [load, Prod.mk.injEq] at h
    obtain ⟨h1, h2, _⟩ := h
    subst h1; subst h2
    simp
  | cons f pre ih =>
    intro rest sv p1 s1 h
    cases f with
    | node nm subs =>
      rcases hr : load e src pre sv with ⟨r1, rs, re⟩
      rw [List.cons_append]
      simp only [load, hr, Prod.mk.injEq] at h ⊢
      obtain ⟨hp, hs, he⟩ := h
      subst hp; subst hs; subst he
      rw [ih rest sv r1 rs hr]
      simp
    | leaf nm t val =>
      rcases hstep : leafStep e src t sv with ⟨ov, sv2⟩
      cases ov with
      | none =>
        rcases hr : load e src pre sv2 with ⟨r1, rs, re⟩
        rw [List.cons_append]
        simp only [load, hstep, hr, Prod.mk.injEq] at h ⊢
        obtain ⟨hp, hs, he⟩ := h
        subst hp; subst hs; subst he
        rw [ih rest sv2 r1 rs hr]
        simp
      | some v =>
        cases hp : processValueFromString e nm val v with
        | error err =>
          simp only [load, hstep, hp, Prod.mk.injEq] at h
          exact absurd h.2.2 (by simp)
        | ok val2 =>
          rcases hr : load e src pre sv2 with ⟨r1, rs, re⟩
          rw [List.cons_append]
          simp only [load, hstep, hp, hr, Prod.mk.injEq] at h ⊢
          obtain ⟨hq, hs, he⟩ := h
          subst hq; subst hs; subst he
          rw [ih rest sv2 r1 rs hr]
          simp

/-- C4 counterexample: for a slice field the resolved value is not the parsed
environment value — the environment elements are appended after the ones the
default pass already produced. Default "a,b" with environment "c" resolves to
a three-element sequence, not to the one-element parsed environment value. -/
theorem c4_slice_append_counterexample :
    IntoObject env1
        (GoValue.ptrStruct [Field.leaf ("L2") ⟨some ("a,b"), some ("ITEMS")⟩ (Value.vSlice [])])
        [] ("")
      = (GoValue.ptrStruct
          [Field.leaf ("L2") ⟨some ("a,b"), some ("ITEMS")⟩ (Value.vSlice (["a", "b", "c"]))],
          none)
    ∧ (["a", "b", "c"] : List String) ≠ ["c"] := by
  constructor
  · simp [IntoObject, afterOverlays, loadDefaults, loadFromEnv, loadConfigsLoop, load, leafStep,
      processValueFromString, env1, goSplitComma, splitCommaAux]
  · decide

/-- C4 as amended: the environment pass runs last, after the default, bundled
overlay and custom overlay passes, and for a leaf whose environment variable
is set to a non-empty string it hands that string and the field's current
value to `processValueFromString`, replacing the value the earlier passes
left — the result is the parsed environment value for string, boolean and
integer fields, while slice fields append the environment elements — provided
the environment pass reaches the field, i.e. no earlier field of the pass
fails to parse. -/
theorem c4_env_overrides_overlays :
    ∀ (e : Env) (fields : List Field) (configs : List String) (cust : String)
      (pre post : List Field) (nm ev v : String) (t : Tags) (val newVal : Value),
      afterOverlays e fields configs cust = (pre ++ Field.leaf nm t val :: post, none) →
      t.env = some ev →
      e.getenv ev = v →
      v ≠ ("") →
      (load e ("env") pre ("")).2.2 = none →
      processValueFromString e nm val v = Except.ok newVal →
      IntoObject e (GoValue.ptrStruct fields) configs cust
        = (GoValue.ptrStruct ((load e ("env") pre ("")).1
            ++ Field.leaf nm t newVal :: (load e ("env") post v).1), none) := by
  intro e fields configs cust pre post nm ev v t val newVal hAo hEv hV hNe hPre hProc
  rcases h1 : load e ("env") pre ("") with ⟨p1, s1, e1⟩
  have he1 : e1 = none := by rw [h1] at hPre; exact hPre
  subst he1
  have happ := load_append e ("env") pre (Field.leaf nm t val :: post) ("") p1 s1 h1
  have hstep : leafStep e ("env") t s1 = (some v, v) := by
    simp [leafStep, hEv, hV, hNe]
  have hcons : load e ("env") (Field.leaf nm t val :: post) s1
      = (Field.leaf nm t newVal :: (load e ("env") post v).1, (load e ("env") post v).2) := by
    simp only [load, hstep, hProc]
  simp [IntoObject, hAo, loadFromEnv, happ, hcons, h1]

/-- Witness for C4 at a concrete environment: a string field with default
"dv" and environment variable NAME set to "ev" resolves to "ev". -/
theorem c4_env_overrides_overlays_witness :
    IntoObject env1
        (GoValue.ptrStruct [Field.leaf ("Name") ⟨some ("dv"), some ("NAME")⟩ (Value.vStr (""))])
        [] ("")
      = (GoValue.ptrStruct [Field.leaf ("Name") ⟨some ("dv"), some ("NAME")⟩ (Value.vStr ("ev"))],
          none) := by
  have h := c4_env_overrides_overlays env1
    [Field.leaf ("Name") ⟨some ("dv"), some ("NAME")⟩ (Value.vStr (""))] [] ("")
    [] [] ("Name") ("NAME") ("ev") ⟨some ("dv"), some ("NAME")⟩ (Value.vStr ("dv"))
    (Value.vStr ("ev"))
    (by simp [afterOverlays, loadDefaults, loadConfigsLoop, load, leafStep,
      processValueFromString, rndStringRegexFind, rndFindAux, rndMatchAt])
    rfl rfl (by decide) (by simp [load]) rfl
  simpa [load] using h

theorem getPath_setPath_ne :
    (fs : List Field) → (p q : List String) → (v : Value) → p ≠ q →
      getPath (setPath fs p v) q = getPath fs q
  | [], _, _, _, _ => by simp [setPath]
  | _ :: _, [], _, _, _ => by simp [setPath]
  | Field.leaf n t w :: rest, [k], [], v, h => by simp [setPath, getPath]
  | Field.node n subs :: rest, [k], [], v, h => by simp [setPath, getPath]
  | Field.leaf n t w :: rest, k :: k2 :: ks, [], v, h => by simp [setPath, getPath]
  | Field.node n subs :: rest, k :: k2 :: ks, [], v, h => by simp [setPath, getPath]
  | Field.leaf n t w :: rest, [k], [l], v, h => by
    have hkl : k ≠ l := fun hh => h (by rw [hh])
    by_cases hn : n = l
    · subst hn
      simp [setPath, getPath, Ne.symm hkl]
    · by_cases hk : n = k <;>
        simp [setPath, getPath, hn, hk, hkl, getPath_setPath_ne rest [k] [l] v h]
  | Field.leaf n t w :: rest, [k], l :: l2 :: ls, v, h => by
    by_cases hk : n = k <;>
      simp [setPath, getPath, hk,
        getPath_setPath_ne rest [k] (l :: l2 :: ls) v (by simp)]
  | Field.leaf n t w :: rest, k :: k2 :: ks, [l], v, h => by
    by_cases hn : n = l <;>
      simp [setPath, getPath, hn,
        getPath_setPath_ne rest (k :: k2 :: ks) [l] v (by simp)]
  | Field.leaf n t w :: rest, k :: k2 :: ks, l :: l2 :: ls, v, h => by
    simp [setPath, getPath, getPath_setPath_ne rest (k :: k2 :: ks) (l :: l2 :: ls) v h]
  | Field.node n subs :: rest, [k], [l], v, h => by
    simp [setPath, getPath, getPath_setPath_ne rest [k] [l] v h]
  | Field.node n subs :: rest, [k], l :: l2 :: ls, v, h => by
    by_cases hn : n = l <;>
      simp [setPath, getPath, hn,
        getPath_setPath_ne rest [k] (l :: l2 :: ls) v (by simp)]
  | Field.node n subs :: rest, k :: k2 :: ks, [l], v, h => by
    by_cases hk : n = k <;>
      simp [setPath, getPath, hk,
        getPath_setPath_ne rest (k :: k2 :: ks) [l] v (by simp)]
  | Field.node n subs :: rest, k :: k2 :: ks, l :: l2 :: ls, v, h => by
    by_cases hn : n = l
    · subst hn
      by_cases hk : n = k
      · subst hk
        have htl : (k2 :: ks : List String) ≠ l2 :: ls := fun hh => h (by rw [hh])
        simp [setPath, getPath, getPath_setPath_ne subs (k2 :: ks) (l2 :: ls) v htl]
      · simp [setPath, getPath, hk]
    · by_cases hk : n = k
      · subst hk
        simp [setPath, getPath, hn,
          getPath_setPath_ne rest (n :: k2 :: ks) (l :: l2 :: ls) v h]
      · simp [setPath, getPath, hn, hk,
          getPath_setPath_ne rest (k :: k2 :: ks) (l :: l2 :: ls) v h]

theorem getPath_setPath_self :
    (fs : List Field) → (p : List String) → (v w : Value) →
      getPath fs p = some w → getPath (setPath fs p v) p = some v
  | [], p, v, w, h => by simp [getPath] at h
  | f :: rest, [], v, w, h => by simp [getPath] at h
  | Field.leaf n t u :: rest, [k], v, w, h => by
    by_cases hn : n = k
    · simp [setPath, getPath, hn]
    · simp only [getPath, hn, if_false] at h
      simp [setPath, getPath, hn, getPath_setPath_self rest [k] v w h]
  | Field.node n subs :: rest, [k], v, w, h => by
    simp only [getPath] at h
    simp [setPath, getPath, getPath_setPath_self rest [k] v w h]
  | Field.leaf n t u :: rest, k :: k2 :: ks, v, w, h => by
    simp only [getPath] at h
    simp [setPath, getPath, getPath_setPath_self rest (k :: k2 :: ks) v w h]
  | Field.node n subs :: rest, k :: k2 :: ks, v, w, h => by
    by_cases hn : n = k
    · simp only [getPath, hn, if_true] at h
      simp [setPath, getPath, hn, getPath_setPath_self subs (k2 :: ks) v w h]
    · simp only [getPath, hn, if_false] at h
      simp [setPath, getPath, hn, getPath_setPath_self rest (k :: k2 :: ks) v w h]

theorem applyOverlay_frame :
    ∀ (o : Overlay) (fs : List Field) (q : List String),
      (∀ ent ∈ o, ent.1 ≠ q) → getPath (applyOverlay fs o) q = getPath fs q := by
  intro o
  induction o with
  | nil => intro fs q _; simp [applyOverlay]
  | cons ent o ih =>
    intro fs q h
    have hd : ent.1 ≠ q := h ent (by simp)
    have ht : ∀ e2 ∈ o, e2.1 ≠ q := fun e2 he2 => h e2 (by simp [he2])
    calc getPath (applyOverlay fs (ent :: o)) q
        = getPath (applyOverlay (setPath fs ent.1 ent.2) o) q := by simp [applyOverlay]
      _ = getPath (setPath fs ent.1 ent.2) q := ih (setPath fs ent.1 ent.2) q ht
      _ = getPath fs q := getPath_setPath_ne fs ent.1 q ent.2 hd

/-- C6: the bundled overlays are merged in the order of the supplied name
list, so the loop over two names equals applying the first document and then
the second; when both documents set the same existing field the second (last)
document's value is what remains; and a field addressed by no entry of either
document keeps its earlier value. -/
theorem c6_overlay_order :
    ∀ (e : Env) (f0 : List Field) (a b : String) (oA oB : Overlay),
      e.configsFS a = some (Except.ok oA) →
      e.configsFS b = some (Except.ok oB) →
      loadConfigsLoop e f0 [a, b] = (applyOverlay (applyOverlay f0 oA) oB, none)
        ∧ (∀ (p : List String) (v1 v2 w : Value),
            oA = [(p, v1)] → oB = [(p, v2)] → getPath f0 p = some w →
            getPath (loadConfigsLoop e f0 [a, b]).1 p = some v2)
        ∧ (∀ q : List String,
            (∀ ent ∈ oA, ent.1 ≠ q) → (∀ ent ∈ oB, ent.1 ≠ q) →
            getPath (loadConfigsLoop e f0 [a, b]).1 q = getPath f0 q) := by
  intro e f0 a b oA oB ha hb
  have hloop : loadConfigsLoop e f0 [a, b] = (applyOverlay (applyOverlay f0 oA) oB, none) := by
    simp [loadConfigsLoop, loadYAMLFromConfigs, ha, hb]
  refine ⟨hloop, ?_, ?_⟩
  · intro p v1 v2 w hA hB hw
    subst hA; subst hB
    rw [hloop]
    have h1 : getPath (setPath f0 p v1) p = some v1 := getPath_setPath_self f0 p v1 w hw
    have h2 := getPath_setPath_self (setPath f0 p v1) p v2 v1 h1
    simpa [applyOverlay] using h2
  · intro q hA hB
    rw [hloop]
    have h1 := applyOverlay_frame oA f0 q hA
    have h2 := applyOverlay_frame oB (applyOverlay f0 oA) q hB
    simp [h2, h1]

/-- Witness for C6 at a concrete environment: overlays a and b both set
UpgradeVersion; after the loop the field holds b's value and the untouched
field Other keeps its earlier value. -/
theorem c6_overlay_order_witness :
    getPath (loadConfigsLoop env2 fieldsC6 [("a"), ("b")]).1 [("UpgradeVersion")]
        = some (Value.vStr ("from-b"))
      ∧ getPath (loadConfigsLoop env2 fieldsC6 [("a"), ("b")]).1 [("Other")]
        = some (Value.vStr ("o")) := by
  constructor
  · exact (c6_overlay_order env2 fieldsC6 ("a") ("b") ovA ovB rfl rfl).2.1
      [("UpgradeVersion")] (Value.vStr ("from-a")) (Value.vStr ("from-b"))
      (Value.vStr ("zero")) rfl rfl (by simp [getPath, fieldsC6])
  · have h := (c6_overlay_order env2 fieldsC6 ("a") ("b") ovA ovB rfl rfl).2.2
      [("Other")] (by simp [ovA]) (by simp [ovB])
    simpa [getPath, fieldsC6] using h

/-- Witness for C7 at a concrete environment: the name `missing` is not
packaged and `/work/custom.yaml` does not exist. -/
theorem c7_overlay_errors_witness :
    IntoObject env0 (GoValue.ptrStruct []) (["missing"]) ("")
        = (GoValue.ptrStruct [],
            some ("error loading config from YAML: "
              ++ ("error trying to open config " ++ "missing" ++ ": file does not exist")))
      ∧ IntoObject env0 (GoValue.ptrStruct []) [] ("custom.yaml")
        = (GoValue.ptrStruct [],
            some ("error loading custom config from YAML: "
              ++ ("open " ++ resolvedPath env0.getwd ("custom.yaml")
                ++ ": no such file or directory"))) := by
  constructor
  · have h := (c7_overlay_errors env0 [] ("missing") [] ("")).1 rfl
    simpa [load] using h
  · have h := (c7_overlay_errors env0 [] ("missing") [] ("custom.yaml")).2 (by decide) rfl
    simpa [load] using h

end Load
